import Mathlib

/-!
Shallow embedding of the streaming trajectory core in
`trajectory_processor.py`: the one-euro adaptive filter
(`LowPassFilter`, `OneEuroFilter`), the real-time processing step
(`TrajectoryProcessor.process_realtime_step`), `reset`, and the serve
feature analysis (`get_serve_features`).  Positions are 3-vectors of
reals (millimeters), timestamps are reals (seconds).  The two external
collaborators (`LandingAnalyzer`, `TrajectoryRecorder`) are imported
from modules not present here; they are modelled as opaque state types
together with a record of transition functions (`Collaborators`), and
each call the core makes to the landing analyzer is logged so that
gating claims can be stated.
-/

/-- Vector of three real coordinates, the embedding of a numpy array of
shape (3,) as used for positions and velocities. -/
structure Vec3 where
  x : ℝ
  y : ℝ
  z : ℝ

instance : Add Vec3 := ⟨fun a b => ⟨a.x + b.x, a.y + b.y, a.z + b.z⟩⟩

instance : Sub Vec3 := ⟨fun a b => ⟨a.x - b.x, a.y - b.y, a.z - b.z⟩⟩

instance : Zero Vec3 := ⟨⟨0, 0, 0⟩⟩

instance : HMul Vec3 ℝ Vec3 := ⟨fun v c => ⟨v.x * c, v.y * c, v.z * c⟩⟩

instance : HMul ℝ Vec3 Vec3 := ⟨fun c v => ⟨c * v.x, c * v.y, c * v.z⟩⟩

noncomputable instance : HDiv Vec3 ℝ Vec3 := ⟨fun v c => ⟨v.x / c, v.y / c, v.z / c⟩⟩

/-- Euclidean norm of a 3-vector: the embedding of `np.linalg.norm`. -/
noncomputable def vnorm (v : Vec3) : ℝ :=
  Real.sqrt (v.x ^ 2 + v.y ^ 2 + v.z ^ 2)

/-- Value stored in the event dictionary returned by
`process_realtime_step`: the source stores booleans and integer
counters. -/
inductive EVal where
  | b : Bool → EVal
  | n : Nat → EVal
deriving DecidableEq

/-- Event dictionary: the Python dict literal built by the source is a
finite list of string keys and values, looked up by key. -/
abbrev Events := List (String × EVal)

/-- State of `LowPassFilter`: a stored last output `s` (None before the
first call) and the current smoothing coefficient `alpha`. -/
structure LowPassFilter where
  s : Option Vec3
  alpha : ℝ

/-- Embedding of `LowPassFilter.filter(value, alpha)`.  An explicit
`alpha` argument overwrites the stored coefficient first; if no prior
output is stored the value itself is stored and returned, otherwise the
exponential blend `alpha * value + (1 - alpha) * s` is stored and
returned. -/
def LowPassFilter.filter (f : LowPassFilter) (value : Vec3) (alpha : Option ℝ) :
    Vec3 × LowPassFilter :=
  let f := match alpha with
    | some a => { f with alpha := a }
    | none => f
  match f.s with
  | none => (value, { f with s := some value })
  | some s0 =>
    let s1 := f.alpha * value + (1.0 - f.alpha) * s0
    (s1, { f with s := some s1 })

/-- State of `OneEuroFilter`: tuning parameters, the two cascaded
low-pass smoothers (position and derivative), and the timestamp of the
last processed sample (None before the first call). -/
structure OneEuroFilter where
  min_cutoff : ℝ
  beta : ℝ
  d_cutoff : ℝ
  x_filter : LowPassFilter
  dx_filter : LowPassFilter
  last_timestamp : Option ℝ

/-- Fresh `OneEuroFilter` as built by `OneEuroFilter.__init__`: both
low-pass smoothers start with no stored value and coefficient 0, no
stored timestamp. -/
def OneEuroFilter.mkNew (min_cutoff beta d_cutoff : ℝ) : OneEuroFilter :=
  { min_cutoff := min_cutoff
    beta := beta
    d_cutoff := d_cutoff
    x_filter := { s := none, alpha := 0 }
    dx_filter := { s := none, alpha := 0 }
    last_timestamp := none }

/-- Embedding of `OneEuroFilter.compute_alpha(cutoff, dt)` (the `self`
argument is unused by the source body). -/
noncomputable def OneEuroFilter.compute_alpha (cutoff dt : ℝ) : ℝ :=
  if dt ≤ 0 then 1.0
  else
    let tau := 1.0 / (2 * Real.pi * cutoff)
    1.0 / (1.0 + tau / dt)

/-- Return value of `OneEuroFilter.filter`: either the Python return
value (which is the possibly-absent stored smoother output on the
non-positive-dt branch), or `err` when the source would raise a
`TypeError` (subtracting a `None` stored value from an array on the
positive-dt branch). -/
inductive FilterRet where
  | val : Option Vec3 → FilterRet
  | err : FilterRet

/-- Embedding of `OneEuroFilter.filter(x, timestamp)`.
First call (no stored timestamp): store the timestamp, seed the
position smoother with `x` and the derivative smoother with the zero
vector, and return `x` unchanged.  Subsequent calls with
`dt = timestamp - last_timestamp <= 0`: return the stored position
smoother output with no state change.  Otherwise: update the
timestamp, smooth the raw derivative `(x - prev) / dt` with the
derivative cutoff, derive the dynamic cutoff
`min_cutoff + beta * |smoothed derivative|`, and smooth the position
with the corresponding coefficient.  When `dt > 0` but no prior
position-smoother value is stored the source raises (`x - None`),
after having already overwritten the stored timestamp. -/
noncomputable def OneEuroFilter.filter (f : OneEuroFilter) (x : Vec3) (timestamp : ℝ) :
    FilterRet × OneEuroFilter :=
  match f.last_timestamp with
  | none =>
    (FilterRet.val (some x),
      { f with
        last_timestamp := some timestamp
        x_filter := { f.x_filter with s := some x }
        dx_filter := { f.dx_filter with s := some 0 } })
  | some lt =>
    let dt := timestamp - lt
    if dt ≤ 0 then (FilterRet.val f.x_filter.s, f)
    else
      let f1 := { f with last_timestamp := some timestamp }
      match f1.x_filter.s with
      | none => (FilterRet.err, f1)
      | some xs =>
        let dx := (x - xs) / dt
        let edxp := f1.dx_filter.filter dx (some (OneEuroFilter.compute_alpha f1.d_cutoff dt))
        let f2 := { f1 with dx_filter := edxp.2 }
        let cutoff := f2.min_cutoff + f2.beta * vnorm edxp.1
        let outp := f2.x_filter.filter x (some (OneEuroFilter.compute_alpha cutoff dt))
        (FilterRet.val (some outp.1), { f2 with x_filter := outp.2 })

/-- Transition functions of the two external collaborators, which live
in modules not part of this core (`landing_analyzer.py`,
`trajectory_recorder.py`).  `σl` is the landing analyzer's opaque
state, `σr` the recorder's.  `analyze_speed_and_trend` returns a
triple in the source; only its middle component (`y_trend_changed`)
is consumed by the core, so only that component is modelled. -/
structure Collaborators (σl σr : Type) where
  analyze_realtime_landing : σl → Vec3 → ℝ → Bool × σl
  reset_landing_analysis : σl → σl
  analyze_speed_and_trend : σr → Vec3 → Vec3 → ℝ → ℝ → Bool × σr
  get_shot_count : σr → Nat

/-- Mutable state of `TrajectoryProcessor` (its `__init__` fields).
The interpolator and the recorder's save path play no role in the
modelled operations and are omitted. -/
structure TrajectoryProcessor (σl σr : Type) where
  one_euro_filter : OneEuroFilter
  landing_analyzer : σl
  recorder : σr
  last_valid_pos : Option Vec3
  last_valid_time : ℝ
  velocity : Vec3
  max_jump_distance : ℝ
  timeout_threshold : ℝ
  prev_pos : Option Vec3
  prev_time : Option ℝ
  frame_count : Nat
  is_evaluating : Bool
  current_serve_buffer : List (Vec3 × ℝ)

/-- Initial `TrajectoryProcessor` state as built by
`TrajectoryProcessor.__init__`: a fresh one-euro filter with
`min_cutoff = 1.5`, `beta = 0.15`, `d_cutoff = 1.5`, no last valid
position, last valid time 0.0, zero velocity, max jump distance
1500.0, timeout threshold 0.5, no previous position/time, frame count
0, not evaluating, empty serve buffer. -/
def TrajectoryProcessor.init {σl σr : Type} (la : σl) (rec : σr) :
    TrajectoryProcessor σl σr :=
  { one_euro_filter := OneEuroFilter.mkNew 1.5 0.15 1.5
    landing_analyzer := la
    recorder := rec
    last_valid_pos := none
    last_valid_time := 0.0
    velocity := 0
    max_jump_distance := 1500.0
    timeout_threshold := 0.5
    prev_pos := none
    prev_time := none
    frame_count := 0
    is_evaluating := false
    current_serve_buffer := [] }

/-- Result of one `process_realtime_step` call: `ret` is the Python
return value — `some (filtered_or_none, speed, events)` on normal
return (`filtered_or_none = none` exactly on rejection), or `none`
when the call raises (only possible from states whose filter holds a
timestamp but no stored position value); `proc` is the processor state
after the call; `landing_calls` records every invocation of the
external landing analyzer made during the call. -/
structure StepResult (σl σr : Type) where
  ret : Option (Option Vec3 × ℝ × Events)
  proc : TrajectoryProcessor σl σr
  landing_calls : List (Vec3 × ℝ)

/-- Event dictionary returned on rejection:
`{"frame_count": fc, "timeout": False}`. -/
def rejEvents (fc : Nat) : Events :=
  [("frame_count", EVal.n fc), ("timeout", EVal.b false)]

/-- Event dictionary returned on acceptance: `{"landing_detected": ld,
"y_trend_changed": ytc, "shot_count": sc, "frame_count": fc,
"timeout": False}`. -/
def accEvents (ld ytc : Bool) (sc fc : Nat) : Events :=
  [("landing_detected", EVal.b ld), ("y_trend_changed", EVal.b ytc),
   ("shot_count", EVal.n sc), ("frame_count", EVal.n fc),
   ("timeout", EVal.b false)]

/-- Accepted-sample path of `process_realtime_step` (source sections C
through G), entered after the rejection check has passed.  `self`
already carries the incremented frame count; `ins` is the computed
`is_new_session` flag and `dt` the computed time step.  On a new
session the velocity is zeroed and the filter's stored values and
timestamp are cleared (section C); the sample is then filtered
(section D); the velocity vector is re-estimated from the filtered
position and the last valid position when one exists and `dt > 0`
(section E); the trend analyzer is consulted when a previous
filtered position/time pair exists, and the landing analyzer exactly
when the filtered z-coordinate is below 80 (section F); finally the
previous and last-valid position/time are set to the filtered sample
and its timestamp (section G).  A filter outcome of `err` or of an
absent value makes the source raise before reaching the landing
check, leaving the remaining processor fields untouched. -/
noncomputable def TrajectoryProcessor.accept_branch {σl σr : Type}
    (C : Collaborators σl σr) (self : TrajectoryProcessor σl σr)
    (pos : Vec3) (timestamp : ℝ) (ins : Bool) (dt : ℝ) : StepResult σl σr :=
  let self :=
    if ins then
      { self with
        velocity := 0
        one_euro_filter :=
          { self.one_euro_filter with
            last_timestamp := none
            x_filter := { self.one_euro_filter.x_filter with s := none }
            dx_filter := { self.one_euro_filter.dx_filter with s := none } } }
    else self
  match self.one_euro_filter.filter pos timestamp with
  | (FilterRet.err, f2) =>
    { ret := none, proc := { self with one_euro_filter := f2 }, landing_calls := [] }
  | (FilterRet.val none, f2) =>
    { ret := none, proc := { self with one_euro_filter := f2 }, landing_calls := [] }
  | (FilterRet.val (some filtered_pos), f2) =>
    let self := { self with one_euro_filter := f2 }
    let sv : ℝ × Vec3 :=
      match self.last_valid_pos with
      | some lvp =>
        if dt > 0 then
          let current_v := (filtered_pos - lvp) / dt
          let v := if ins then current_v
                   else (0.8 : ℝ) * current_v + (0.2 : ℝ) * self.velocity
          (vnorm v, v)
        else (0, self.velocity)
      | none => (0, self.velocity)
    let self := { self with velocity := sv.2 }
    let trend : Bool × σr :=
      match self.prev_pos, self.prev_time with
      | some pp, some pt => C.analyze_speed_and_trend self.recorder filtered_pos pp timestamp pt
      | _, _ => (false, self.recorder)
    let self := { self with recorder := trend.2 }
    let land : Bool × σl × List (Vec3 × ℝ) :=
      if filtered_pos.z < 80 then
        let r := C.analyze_realtime_landing self.landing_analyzer filtered_pos timestamp
        (r.1, r.2, [(filtered_pos, timestamp)])
      else (false, self.landing_analyzer, [])
    let self := { self with landing_analyzer := land.2.1 }
    let self :=
      { self with
        prev_pos := some filtered_pos
        prev_time := some timestamp
        last_valid_pos := some filtered_pos
        last_valid_time := timestamp }
    { ret := some (some filtered_pos, sv.1,
        accEvents land.1 trend.1 (C.get_shot_count self.recorder) self.frame_count)
      proc := self
      landing_calls := land.2.2 }

/-- Embedding of `TrajectoryProcessor.process_realtime_step(raw_pos,
timestamp)`.  The frame counter is incremented unconditionally
(source line 77).  Section A: if a positive last valid time exists,
`dt = timestamp - last_valid_time`, and a gap above the timeout
threshold starts a new session with `dt` forced to 0.033; with no
positive last valid time the sample always starts a new session with
`dt = 0.033`.  Section B: in a continuing session with a stored last
valid position, the sample is rejected — returning
`(None, 0, {"frame_count": fc, "timeout": False})` with no further
state change — exactly when its Euclidean distance from the predicted
position `last_valid_pos + velocity * dt` exceeds the max jump
distance.  Otherwise processing continues in `accept_branch`. -/
noncomputable def TrajectoryProcessor.process_realtime_step {σl σr : Type}
    (C : Collaborators σl σr) (self : TrajectoryProcessor σl σr)
    (raw_pos : Vec3) (timestamp : ℝ) : StepResult σl σr :=
  let pos := raw_pos
  let self := { self with frame_count := self.frame_count + 1 }
  let ad : Bool × ℝ :=
    if self.last_valid_time > 0 then
      let dt := timestamp - self.last_valid_time
      if dt > self.timeout_threshold then (true, 0.033) else (false, dt)
    else (true, 0.033)
  match ad.1, self.last_valid_pos with
  | false, some lvp =>
    let predicted_pos := lvp + self.velocity * ad.2
    let actual_dist := vnorm (pos - predicted_pos)
    if actual_dist > self.max_jump_distance then
      { ret := some (none, 0, rejEvents self.frame_count)
        proc := self
        landing_calls := [] }
    else self.accept_branch C pos timestamp false ad.2
  | ins, _ => self.accept_branch C pos timestamp ins ad.2

/-- Embedding of `TrajectoryProcessor.reset()`: restores the core
state fields to their initial values and tells the landing analyzer to
reset its own state (`reset_landing_analysis`).  The one-euro filter,
the recorder state, and the serve-evaluation fields are not touched by
the source. -/
def TrajectoryProcessor.reset {σl σr : Type} (C : Collaborators σl σr)
    (self : TrajectoryProcessor σl σr) : TrajectoryProcessor σl σr :=
  { self with
    last_valid_pos := none
    last_valid_time := 0.0
    velocity := 0
    prev_pos := none
    prev_time := none
    frame_count := 0
    landing_analyzer := C.reset_landing_analysis self.landing_analyzer }

/-- Embedding of `np.diff` on a one-dimensional sequence of vectors:
the list of consecutive differences `next - current`. -/
def npdiffV : List Vec3 → List Vec3
  | a :: b :: rest => (b - a) :: npdiffV (b :: rest)
  | _ => []

/-- Embedding of `np.diff` on a one-dimensional sequence of reals. -/
def npdiffR : List ℝ → List ℝ
  | a :: b :: rest => (b - a) :: npdiffR (b :: rest)
  | _ => []

/-- Maximum of a list of reals, the embedding of `np.max`; the source
only applies it to nonempty arrays (the empty case, on which `np.max`
raises, is given the junk value 0). -/
def listMax : List ℝ → ℝ
  | [] => 0
  | a :: rest => rest.foldl max a

/-- Per-step distances of `get_serve_features`: Euclidean norms of the
consecutive position differences, divided by 1000 (millimeters to
meters). -/
noncomputable def serve_dist (points : List (Vec3 × ℝ)) : List ℝ :=
  (npdiffV (points.map Prod.fst)).map (fun v => vnorm v / 1000.0)

/-- Per-step elapsed times of `get_serve_features`: consecutive
differences of the buffered timestamps. -/
def serve_dt (points : List (Vec3 × ℝ)) : List ℝ :=
  npdiffR (points.map Prod.snd)

/-- Guarded per-step elapsed times: the source statement
`dt[dt == 0] = 0.001` replaces exactly the entries equal to zero by
0.001 and leaves every other entry (negative ones included)
unchanged. -/
noncomputable def serve_dt_guarded (points : List (Vec3 × ℝ)) : List ℝ :=
  (serve_dt points).map (fun d => if d = 0 then 0.001 else d)

/-- Per-step speeds of `get_serve_features`: elementwise quotient of
the per-step distances by the guarded per-step elapsed times. -/
noncomputable def serve_speeds (points : List (Vec3 × ℝ)) : List ℝ :=
  List.zipWith (fun a b => a / b) (serve_dist points) (serve_dt_guarded points)

/-- Report computed by `get_serve_features`. -/
structure ServeFeatures where
  max_speed : ℝ
  peak_height : ℝ
  landing_x : ℝ
  landing_y : ℝ
  duration : ℝ

/-- Embedding of `TrajectoryProcessor.get_serve_features(points)`:
`None` with fewer than 5 points; otherwise the maximum per-step speed,
the maximum z-coordinate, the x/y coordinates of the last point, and
the time span from first to last point.  The lists indexed below are
nonempty whenever this branch is reached, so the default values of
`getLastD`/`headD` are never used. -/
noncomputable def TrajectoryProcessor.get_serve_features
    (points : List (Vec3 × ℝ)) : Option ServeFeatures :=
  if points.length < 5 then none
  else
    some
      { max_speed := listMax (serve_speeds points)
        peak_height := listMax ((points.map Prod.fst).map Vec3.z)
        landing_x := ((points.map Prod.fst).getLastD 0).x
        landing_y := ((points.map Prod.fst).getLastD 0).y
        duration := (points.map Prod.snd).getLastD 0 - (points.map Prod.snd).headD 0 }

/-- Per-step serve speeds written directly from the specification's
words, for comparison with the implementation: for each pair of
consecutive buffered points, the Euclidean distance between their
positions converted to meters, divided by the elapsed time between
them with a zero elapsed time floored to the small positive epsilon
0.001. -/
noncomputable def specStepSpeeds : List (Vec3 × ℝ) → List ℝ
  | (p1, t1) :: (p2, t2) :: rest =>
    (vnorm (p2 - p1) / 1000.0 / (if t2 - t1 = 0 then 0.001 else t2 - t1)) ::
      specStepSpeeds ((p2, t2) :: rest)
  | _ => []

/-- Concrete collaborators over trivial (unit) analyzer states, used to
evaluate the pipeline on concrete inputs: the landing analyzer and the
trend analyzer always report `false`, the shot counter is 0. -/
def Cunit : Collaborators Unit Unit :=
  { analyze_realtime_landing := fun _ _ _ => (false, ())
    reset_landing_analysis := fun u => u
    analyze_speed_and_trend := fun _ _ _ _ _ => (false, ())
    get_shot_count := fun _ => 0 }

/-- Freshly constructed processor over the trivial collaborators. -/
noncomputable def procInit : TrajectoryProcessor Unit Unit :=
  TrajectoryProcessor.init () ()

/-- Concrete mid-session processor state: last accepted position at the
origin at time 1, zero velocity, frame count 5, filter seeded at the
origin. -/
noncomputable def sMid : TrajectoryProcessor Unit Unit :=
  { procInit with
    last_valid_pos := some ⟨0, 0, 0⟩
    last_valid_time := 1
    prev_pos := some ⟨0, 0, 0⟩
    prev_time := some 1
    frame_count := 5
    one_euro_filter :=
      { OneEuroFilter.mkNew 1.5 0.15 1.5 with
        x_filter := { s := some ⟨0, 0, 0⟩, alpha := 1 }
        dx_filter := { s := some 0, alpha := 1 }
        last_timestamp := some 1 } }

/-- Concrete one-euro filter state past its first call: stored output
at position (1, 2, 3), stored timestamp 2. -/
noncomputable def fMid : OneEuroFilter :=
  { OneEuroFilter.mkNew 1.5 0.15 1.5 with
    x_filter := { s := some ⟨1, 2, 3⟩, alpha := 1 }
    dx_filter := { s := some 0, alpha := 1 }
    last_timestamp := some 2 }

/-- Concrete serve buffer of five points climbing 1000 mm in z per
step, whose timestamps go backwards between the second and third
points (elapsed time -1/2). -/
noncomputable def ptsNeg : List (Vec3 × ℝ) :=
  [(⟨0, 0, 0⟩, 0), (⟨0, 0, 1000⟩, 1), (⟨0, 0, 2000⟩, 1 / 2),
   (⟨0, 0, 3000⟩, 3 / 2), (⟨0, 0, 4000⟩, 5 / 2)]

/-- Evaluation rule for the Euclidean norm at inputs whose sum of
squares is a perfect square. -/
lemma vnorm_eval (a b c r : ℝ) (hr : 0 ≤ r) (h : a ^ 2 + b ^ 2 + c ^ 2 = r ^ 2) :
    vnorm ⟨a, b, c⟩ = r := by
  unfold vnorm
  simp only
  rw [h, Real.sqrt_sq hr]

/-- Key lookups in an accepted-sample event dictionary. -/
lemma accEvents_lookups (ld ytc : Bool) (sc fc : Nat) :
    (accEvents ld ytc sc fc).lookup "frame_count" = some (EVal.n fc) ∧
    (accEvents ld ytc sc fc).lookup "is_new_session" = none ∧
    (accEvents ld ytc sc fc).lookup "timeout" = some (EVal.b false) := by
  refine ⟨rfl, rfl, rfl⟩

/-- Key lookups in a rejected-sample event dictionary. -/
lemma rejEvents_lookups (fc : Nat) :
    (rejEvents fc).lookup "frame_count" = some (EVal.n fc) ∧
    (rejEvents fc).lookup "is_new_session" = none ∧
    (rejEvents fc).lookup "timeout" = some (EVal.b false) := by
  refine ⟨rfl, rfl, rfl⟩

/-- The accepted-sample path never changes the frame counter. -/
lemma accept_branch_frame_count {σl σr : Type} (C : Collaborators σl σr)
    (self : TrajectoryProcessor σl σr) (pos : Vec3) (t : ℝ) (ins : Bool) (dt : ℝ) :
    (self.accept_branch C pos t ins dt).proc.frame_count = self.frame_count := by
  simp only [TrajectoryProcessor.accept_branch]
  repeat' split
  all_goals rfl

lemma accept_branch_cases {σl σr : Type} (C : Collaborators σl σr)
    (self : TrajectoryProcessor σl σr) (pos : Vec3) (t : ℝ) (ins : Bool) (dt : ℝ) :
    ((self.accept_branch C pos t ins dt).ret = none ∧
      (self.accept_branch C pos t ins dt).landing_calls = []) ∨
    (∃ fp sp ld ytc sc,
      (self.accept_branch C pos t ins dt).ret =
        some (some fp, sp, accEvents ld ytc sc self.frame_count) ∧
      (self.accept_branch C pos t ins dt).landing_calls =
        (if fp.z < 80 then [(fp, t)] else [])) := by
  simp only [TrajectoryProcessor.accept_branch]
  repeat' split
  all_goals first
    | exact Or.inl ⟨rfl, rfl⟩
    | (refine Or.inr ⟨_, _, _, _, _, rfl, ?_⟩; simp [*])
lemma accept_branch_ret_shape {σl σr : Type} (C : Collaborators σl σr)
    (self : TrajectoryProcessor σl σr) (pos : Vec3) (t : ℝ) (ins : Bool) (dt : ℝ)
    (v : Option Vec3) (sp : ℝ) (ev : Events)
    (h : (self.accept_branch C pos t ins dt).ret = some (v, sp, ev)) :
    ∃ fp ld ytc sc, v = some fp ∧ ev = accEvents ld ytc sc self.frame_count := by
  rcases accept_branch_cases C self pos t ins dt with ⟨hn, _⟩ | ⟨fp, sp', ld, ytc, sc, hr, _⟩
  · rw [hn] at h; cases h
  · rw [hr] at h
    simp only [Option.some.injEq, Prod.mk.injEq] at h
    exact ⟨fp, ld, ytc, sc, h.1.symm, h.2.2.symm⟩

lemma accept_branch_landing {σl σr : Type} (C : Collaborators σl σr)
    (self : TrajectoryProcessor σl σr) (pos : Vec3) (t : ℝ) (ins : Bool) (dt : ℝ)
    (fp : Vec3) (sp : ℝ) (ev : Events)
    (h : (self.accept_branch C pos t ins dt).ret = some (some fp, sp, ev)) :
    (self.accept_branch C pos t ins dt).landing_calls =
      if fp.z < 80 then [(fp, t)] else [] := by
  rcases accept_branch_cases C self pos t ins dt with ⟨hn, _⟩ | ⟨fp', sp', ld, ytc, sc, hr, hc⟩
  · rw [hn] at h; cases h
  · rw [hr] at h
    simp only [Option.some.injEq, Prod.mk.injEq] at h
    obtain rfl : fp' = fp := h.1
    exact hc

/-- Section A of `process_realtime_step` routes a call that starts a
new session (no positive last valid time, or a gap above the timeout
threshold) to the accepted path with `ins = true` and `dt = 0.033`. -/
lemma step_new_session {σl σr : Type} (C : Collaborators σl σr)
    (s : TrajectoryProcessor σl σr) (pos : Vec3) (t : ℝ)
    (h : s.last_valid_time ≤ 0 ∨ t - s.last_valid_time > s.timeout_threshold) :
    s.process_realtime_step C pos t =
      TrajectoryProcessor.accept_branch C { s with frame_count := s.frame_count + 1 }
        pos t true 0.033 := by
  simp only [TrajectoryProcessor.process_realtime_step]
  by_cases hl : s.last_valid_time > 0
  · have hdt : t - s.last_valid_time > s.timeout_threshold := by
      rcases h with h | h
      · exact absurd hl (not_lt.mpr h)
      · exact h
    rw [if_pos hl, if_pos hdt]
  · rw [if_neg hl]

/-- Section A and B of `process_realtime_step` for a continuing
session with a stored last valid position: the call either rejects
(distance above threshold) or continues on the accepted path with
`ins = false` and the true elapsed time. -/
lemma step_continuing {σl σr : Type} (C : Collaborators σl σr)
    (s : TrajectoryProcessor σl σr) (pos : Vec3) (t : ℝ) (lvp : Vec3)
    (h1 : 0 < s.last_valid_time) (h2 : t - s.last_valid_time ≤ s.timeout_threshold)
    (h3 : s.last_valid_pos = some lvp) :
    s.process_realtime_step C pos t =
      if vnorm (pos - (lvp + s.velocity * (t - s.last_valid_time))) > s.max_jump_distance then
        { ret := some (none, 0, rejEvents (s.frame_count + 1))
          proc := { s with frame_count := s.frame_count + 1 }
          landing_calls := [] }
      else
        TrajectoryProcessor.accept_branch C { s with frame_count := s.frame_count + 1 }
          pos t false (t - s.last_valid_time) := by
  simp only [TrajectoryProcessor.process_realtime_step]
  rw [if_pos h1, if_neg (not_lt.mpr h2)]
  simp only [h3]
/-- Full evaluation of the accepted-sample path when a new session has
been flagged (`ins = true`) and `dt > 0`: the velocity is zeroed and
the filter cleared, so the filter re-initializes on the sample and
returns it unchanged; the velocity becomes the single-step raw
estimate from the last valid position when one exists (and stays zero
otherwise), and the returned speed is its Euclidean norm. -/
lemma accept_branch_new_eval {σl σr : Type} (C : Collaborators σl σr)
    (self : TrajectoryProcessor σl σr) (pos : Vec3) (t dt : ℝ) (hdt : 0 < dt) :
    self.accept_branch C pos t true dt =
      (let vel : Vec3 := match self.last_valid_pos with
        | some lvp => (pos - lvp) / dt
        | none => 0
      let spd : ℝ := match self.last_valid_pos with
        | some _ => vnorm vel
        | none => 0
      let trend : Bool × σr := match self.prev_pos, self.prev_time with
        | some pp, some pt => C.analyze_speed_and_trend self.recorder pos pp t pt
        | _, _ => (false, self.recorder)
      let land : Bool × σl × List (Vec3 × ℝ) :=
        if pos.z < 80 then
          (let r := C.analyze_realtime_landing self.landing_analyzer pos t
           (r.1, r.2, [(pos, t)]))
        else (false, self.landing_analyzer, [])
      { ret := some (some pos, spd,
          accEvents land.1 trend.1 (C.get_shot_count trend.2) self.frame_count)
        proc := { self with
          velocity := vel
          recorder := trend.2
          landing_analyzer := land.2.1
          one_euro_filter := { self.one_euro_filter with
            last_timestamp := some t
            x_filter := { self.one_euro_filter.x_filter with s := some pos }
            dx_filter := { self.one_euro_filter.dx_filter with s := some 0 } }
          prev_pos := some pos
          prev_time := some t
          last_valid_pos := some pos
          last_valid_time := t }
        landing_calls := land.2.2 }) := by
  simp only [TrajectoryProcessor.accept_branch, OneEuroFilter.filter, if_true]
  simp only [hdt, gt_iff_lt, if_true]
  rcases hl : self.last_valid_pos with _ | lvp <;>
    rcases hp : self.prev_pos with _ | pp <;>
      rcases ht : self.prev_time with _ | pt <;>
        by_cases hz : pos.z < 80 <;>
          simp [hl, hp, ht, hz, hdt]
/-- Componentwise unfolding of vector subtraction. -/
lemma Vec3.sub_def (a b : Vec3) : a - b = ⟨a.x - b.x, a.y - b.y, a.z - b.z⟩ := rfl

/-- Componentwise unfolding of vector addition. -/
lemma Vec3.add_def (a b : Vec3) : a + b = ⟨a.x + b.x, a.y + b.y, a.z + b.z⟩ := rfl

/-- Componentwise unfolding of vector-by-scalar multiplication. -/
lemma Vec3.mulR_def (v : Vec3) (c : ℝ) : v * c = ⟨v.x * c, v.y * c, v.z * c⟩ := rfl

/-- Componentwise unfolding of scalar-by-vector multiplication. -/
lemma Vec3.mulL_def (c : ℝ) (v : Vec3) : c * v = ⟨c * v.x, c * v.y, c * v.z⟩ := rfl

/-- Componentwise unfolding of vector-by-scalar division. -/
lemma Vec3.div_def (v : Vec3) (c : ℝ) : v / c = ⟨v.x / c, v.y / c, v.z / c⟩ := rfl

/-- Unfolding of the zero vector. -/
lemma Vec3.zero_def : (0 : Vec3) = ⟨0, 0, 0⟩ := rfl

/-- Concrete evaluation: the first sample fed to a fresh processor is
accepted, returned unfiltered with speed 0, and reported with frame
count 1 and no event flags set. -/
lemma step_init_ret :
    (procInit.process_realtime_step Cunit ⟨0, 0, 200⟩ 1).ret =
      some (some ⟨0, 0, 200⟩, 0, accEvents false false 0 1) := by
  rw [step_new_session Cunit procInit ⟨0, 0, 200⟩ 1
    (Or.inl (by norm_num [procInit, TrajectoryProcessor.init]))]
  rw [accept_branch_new_eval Cunit _ ⟨0, 0, 200⟩ 1 0.033 (by norm_num)]
  norm_num [procInit, TrajectoryProcessor.init, Cunit]

/-- Concrete evaluation: from the mid-session state `sMid`, a sample
2000 mm from the predicted position at elapsed time 0.1 is rejected;
the full call result is the explicit no-output record with only the
frame counter advanced. -/
lemma step_reject_eval :
    sMid.process_realtime_step Cunit ⟨2000, 0, 0⟩ (1.1 : ℝ) =
      { ret := some (none, 0, rejEvents 6)
        proc := { sMid with frame_count := 6 }
        landing_calls := [] } := by
  rw [step_continuing Cunit sMid ⟨2000, 0, 0⟩ 1.1 ⟨0, 0, 0⟩
    (by norm_num [sMid, procInit, TrajectoryProcessor.init])
    (by norm_num [sMid, procInit, TrajectoryProcessor.init])
    (by simp [sMid, procInit, TrajectoryProcessor.init])]
  have he : (⟨2000, 0, 0⟩ : Vec3) -
      (⟨0, 0, 0⟩ + sMid.velocity * ((1.1 : ℝ) - sMid.last_valid_time)) = ⟨2000, 0, 0⟩ := by
    simp [sMid, procInit, TrajectoryProcessor.init, Vec3.sub_def, Vec3.add_def,
      Vec3.mulR_def, Vec3.zero_def]
  rw [he, vnorm_eval 2000 0 0 2000 (by norm_num) (by norm_num)]
  rw [if_pos (by norm_num [sMid, procInit, TrajectoryProcessor.init])]
  norm_num [sMid, procInit, TrajectoryProcessor.init]
/-- The per-step speeds computed by the implementation coincide with
the recursive per-step description written from the specification
(with the implementation's guard: only an exactly-zero elapsed time is
floored to 0.001). -/
lemma serve_speeds_eq_spec (points : List (Vec3 × ℝ)) :
    serve_speeds points = specStepSpeeds points := by
  induction points with
  | nil => rfl
  | cons p rest ih =>
    cases rest with
    | nil => rfl
    | cons q rest2 =>
      obtain ⟨p1, t1⟩ := p
      obtain ⟨q1, t2⟩ := q
      simp only [serve_speeds, serve_dist, serve_dt, serve_dt_guarded, npdiffV, npdiffR,
        List.map_cons, List.zipWith_cons_cons, specStepSpeeds] at ih ⊢
      rw [ih]

/-- Every guarded per-step elapsed time is nonzero (an exact zero is
replaced by 0.001; other values are unchanged and already nonzero when
nonzero). -/
lemma serve_dt_guarded_ne_zero (points : List (Vec3 × ℝ)) :
    ∀ d ∈ serve_dt_guarded points, d ≠ 0 := by
  intro d hd
  simp only [serve_dt_guarded, List.mem_map] at hd
  obtain ⟨d0, _, rfl⟩ := hd
  by_cases h0 : d0 = 0
  · rw [if_pos h0]; norm_num
  · rw [if_neg h0]; exact h0

/-- Concrete evaluation of the per-step speeds on the buffer with a
backwards time step: the second step is computed with the unguarded
negative elapsed time -1/2 and yields the negative speed -2. -/
lemma serve_speeds_ptsNeg : serve_speeds ptsNeg = [1, -2, 1, 1] := by
  have h1000 : vnorm ⟨0, 0, 1000⟩ = 1000 := vnorm_eval 0 0 1000 1000 (by norm_num) (by norm_num)
  simp only [ptsNeg, serve_speeds, serve_dist, serve_dt, serve_dt_guarded,
    npdiffV, npdiffR, List.map_cons, List.map_nil, List.zipWith_cons_cons,
    List.zipWith_nil_right, Vec3.sub_def]
  norm_num [h1000]
/-- Section A routing for a continuing session whose last valid
position is absent: the rejection check is skipped and processing
continues on the accepted path with `ins = false`. -/
lemma step_continuing_none {σl σr : Type} (C : Collaborators σl σr)
    (s : TrajectoryProcessor σl σr) (pos : Vec3) (t : ℝ)
    (h1 : 0 < s.last_valid_time) (h2 : t - s.last_valid_time ≤ s.timeout_threshold)
    (h3 : s.last_valid_pos = none) :
    s.process_realtime_step C pos t =
      TrajectoryProcessor.accept_branch C { s with frame_count := s.frame_count + 1 }
        pos t false (t - s.last_valid_time) := by
  simp only [TrajectoryProcessor.process_realtime_step]
  rw [if_pos h1, if_neg (not_lt.mpr h2)]
  simp only [h3]

/-- The frame counter after any `process_realtime_step` call is the
frame counter before the call plus one, on every path (accepted,
rejected, or raising). -/
lemma step_proc_frame_count {σl σr : Type} (C : Collaborators σl σr)
    (s : TrajectoryProcessor σl σr) (pos : Vec3) (t : ℝ) :
    (s.process_realtime_step C pos t).proc.frame_count = s.frame_count + 1 := by
  by_cases hn : s.last_valid_time ≤ 0 ∨ t - s.last_valid_time > s.timeout_threshold
  · rw [step_new_session C s pos t hn]
    exact accept_branch_frame_count C _ pos t true 0.033
  · push_neg at hn
    obtain ⟨hl, hg⟩ := hn
    rcases h3 : s.last_valid_pos with _ | lvp
    · rw [step_continuing_none C s pos t hl hg h3]
      exact accept_branch_frame_count C _ pos t false (t - s.last_valid_time)
    · rw [step_continuing C s pos t lvp hl hg h3]
      by_cases hd :
        vnorm (pos - (lvp + s.velocity * (t - s.last_valid_time))) > s.max_jump_distance
      · rw [if_pos hd]
      · rw [if_neg hd]
        exact accept_branch_frame_count C _ pos t false (t - s.last_valid_time)

/-- The event dictionary of any normal return is either the rejection
dictionary or an acceptance dictionary, in both cases carrying the
incremented frame count; moreover the returned position is absent
exactly in the rejection case. -/
lemma step_ret_events {σl σr : Type} (C : Collaborators σl σr)
    (s : TrajectoryProcessor σl σr) (pos : Vec3) (t : ℝ)
    (v : Option Vec3) (sp : ℝ) (ev : Events)
    (h : (s.process_realtime_step C pos t).ret = some (v, sp, ev)) :
    (v = none ∧ sp = 0 ∧ ev = rejEvents (s.frame_count + 1)) ∨
    (∃ fp ld ytc sc, v = some fp ∧ ev = accEvents ld ytc sc (s.frame_count + 1)) := by
  by_cases hn : s.last_valid_time ≤ 0 ∨ t - s.last_valid_time > s.timeout_threshold
  · rw [step_new_session C s pos t hn] at h
    exact Or.inr (accept_branch_ret_shape C _ pos t true 0.033 v sp ev h)
  · push_neg at hn
    obtain ⟨hl, hg⟩ := hn
    rcases h3 : s.last_valid_pos with _ | lvp
    · rw [step_continuing_none C s pos t hl hg h3] at h
      exact Or.inr (accept_branch_ret_shape C _ pos t false (t - s.last_valid_time) v sp ev h)
    · rw [step_continuing C s pos t lvp hl hg h3] at h
      by_cases hd :
        vnorm (pos - (lvp + s.velocity * (t - s.last_valid_time))) > s.max_jump_distance
      · rw [if_pos hd] at h
        simp only [Option.some.injEq, Prod.mk.injEq] at h
        exact Or.inl ⟨h.1.symm, h.2.1.symm, h.2.2.symm⟩
      · rw [if_neg hd] at h
        exact Or.inr (accept_branch_ret_shape C _ pos t false (t - s.last_valid_time) v sp ev h)
/-- C1, counterexample: from the mid-session state `sMid` (frame count
5), the sample 2000 mm from the predicted position is rejected, yet
the frame counter after the call differs from its value before the
call — so the rejected call does not leave all of ProcessorState
byte-for-byte unchanged. -/
theorem C1_rejection_state_cex :
    (sMid.process_realtime_step Cunit ⟨2000, 0, 0⟩ (1.1 : ℝ)).ret =
      some (none, 0, rejEvents 6) ∧
    (sMid.process_realtime_step Cunit ⟨2000, 0, 0⟩ (1.1 : ℝ)).proc.frame_count ≠
      sMid.frame_count := by
  rw [step_reject_eval]
  refine ⟨rfl, ?_⟩
  show (6 : Nat) ≠ sMid.frame_count
  simp [sMid, procInit, TrajectoryProcessor.init]

/-- C1 (amended): a call rejected by the Noise/Session Guard
(continuing session, distance from the predicted position above the
max-jump threshold) leaves last_valid_pos, last_valid_time, velocity,
prev_pos, prev_time and the entire FilterState unchanged and makes no
landing-analyzer call, but increments frame_count by exactly 1 (and
returns the explicit no-output result carrying that value). -/
theorem C1_rejection_state_amended {σl σr : Type} (C : Collaborators σl σr)
    (s : TrajectoryProcessor σl σr) (pos : Vec3) (t : ℝ) (lvp : Vec3)
    (h1 : 0 < s.last_valid_time) (h2 : t - s.last_valid_time ≤ s.timeout_threshold)
    (h3 : s.last_valid_pos = some lvp)
    (h4 : vnorm (pos - (lvp + s.velocity * (t - s.last_valid_time))) > s.max_jump_distance) :
    (s.process_realtime_step C pos t).proc = { s with frame_count := s.frame_count + 1 } ∧
    (s.process_realtime_step C pos t).ret = some (none, 0, rejEvents (s.frame_count + 1)) ∧
    (s.process_realtime_step C pos t).landing_calls = [] := by
  rw [step_continuing C s pos t lvp h1 h2 h3, if_pos h4]
  exact ⟨rfl, rfl, rfl⟩

/-- C1, witness: the amended theorem applied to the concrete rejected
call from `sMid`. -/
theorem C1_rejection_state_witness :
    (sMid.process_realtime_step Cunit ⟨2000, 0, 0⟩ (1.1 : ℝ)).proc =
      { sMid with frame_count := sMid.frame_count + 1 } ∧
    (sMid.process_realtime_step Cunit ⟨2000, 0, 0⟩ (1.1 : ℝ)).ret =
      some (none, 0, rejEvents (sMid.frame_count + 1)) ∧
    (sMid.process_realtime_step Cunit ⟨2000, 0, 0⟩ (1.1 : ℝ)).landing_calls = [] :=
  C1_rejection_state_amended Cunit sMid ⟨2000, 0, 0⟩ 1.1 ⟨0, 0, 0⟩
    (by norm_num [sMid, procInit, TrajectoryProcessor.init])
    (by norm_num [sMid, procInit, TrajectoryProcessor.init])
    (by simp [sMid, procInit, TrajectoryProcessor.init])
    (by
      have he : (⟨2000, 0, 0⟩ : Vec3) -
          (⟨0, 0, 0⟩ + sMid.velocity * ((1.1 : ℝ) - sMid.last_valid_time)) = ⟨2000, 0, 0⟩ := by
        simp [sMid, procInit, TrajectoryProcessor.init, Vec3.sub_def, Vec3.add_def,
          Vec3.mulR_def, Vec3.zero_def]
      rw [he, vnorm_eval 2000 0 0 2000 (by norm_num) (by norm_num)]
      norm_num [sMid, procInit, TrajectoryProcessor.init])

/-- C2: every `process_realtime_step` call increments the frame
counter by exactly 1, and every returned event record (accepted or
rejected) carries the incremented value under the key
"frame_count". -/
theorem C2_frame_count_increment {σl σr : Type} (C : Collaborators σl σr)
    (s : TrajectoryProcessor σl σr) (pos : Vec3) (t : ℝ) :
    (s.process_realtime_step C pos t).proc.frame_count = s.frame_count + 1 ∧
    ∀ v sp ev, (s.process_realtime_step C pos t).ret = some (v, sp, ev) →
      ev.lookup "frame_count" = some (EVal.n (s.frame_count + 1)) := by
  refine ⟨step_proc_frame_count C s pos t, ?_⟩
  intro v sp ev h
  rcases step_ret_events C s pos t v sp ev h with ⟨_, _, hev⟩ | ⟨fp, ld, ytc, sc, _, hev⟩
  · rw [hev]
    exact (rejEvents_lookups (s.frame_count + 1)).1
  · rw [hev]
    exact (accEvents_lookups ld ytc sc (s.frame_count + 1)).1

/-- C2, witness: the theorem applied to the first call on a fresh
processor, whose concrete return is given by `step_init_ret`. -/
theorem C2_frame_count_increment_witness :
    (procInit.process_realtime_step Cunit ⟨0, 0, 200⟩ 1).proc.frame_count = 1 ∧
    (accEvents false false 0 1).lookup "frame_count" = some (EVal.n 1) :=
  ⟨(C2_frame_count_increment Cunit procInit ⟨0, 0, 200⟩ 1).1,
   (C2_frame_count_increment Cunit procInit ⟨0, 0, 200⟩ 1).2
     (some ⟨0, 0, 200⟩) 0 (accEvents false false 0 1) step_init_ret⟩

/-- C3, counterexample: the first sample fed to a fresh processor
starts a new session (no prior valid time) and is accepted, yet the
returned event record has no "is_new_session" key at all. -/
theorem C3_events_cex :
    (procInit.process_realtime_step Cunit ⟨0, 0, 200⟩ 1).ret =
      some (some ⟨0, 0, 200⟩, 0, accEvents false false 0 1) ∧
    (accEvents false false 0 1).lookup "is_new_session" = none ∧
    procInit.last_valid_time ≤ 0 :=
  ⟨step_init_ret, rfl, by norm_num [procInit, TrajectoryProcessor.init]⟩

/-- C3 (amended): the event record returned by
`process_realtime_step` never contains an "is_new_session" field; the
new-session condition only drives internal state resets.  Instead the
record always carries a "timeout" field that is false. -/
theorem C3_events_no_new_session_field {σl σr : Type} (C : Collaborators σl σr)
    (s : TrajectoryProcessor σl σr) (pos : Vec3) (t : ℝ) :
    ∀ v sp ev, (s.process_realtime_step C pos t).ret = some (v, sp, ev) →
      ev.lookup "is_new_session" = none ∧ ev.lookup "timeout" = some (EVal.b false) := by
  intro v sp ev h
  rcases step_ret_events C s pos t v sp ev h with ⟨_, _, hev⟩ | ⟨fp, ld, ytc, sc, _, hev⟩
  · rw [hev]
    exact ⟨(rejEvents_lookups (s.frame_count + 1)).2.1, (rejEvents_lookups (s.frame_count + 1)).2.2⟩
  · rw [hev]
    exact ⟨(accEvents_lookups ld ytc sc (s.frame_count + 1)).2.1,
      (accEvents_lookups ld ytc sc (s.frame_count + 1)).2.2⟩

/-- C3, witness: the amended theorem applied to the concrete accepted
first call. -/
theorem C3_events_witness :
    (accEvents false false 0 1).lookup "is_new_session" = none ∧
    (accEvents false false 0 1).lookup "timeout" = some (EVal.b false) :=
  C3_events_no_new_session_field Cunit procInit ⟨0, 0, 200⟩ 1
    (some ⟨0, 0, 200⟩) 0 (accEvents false false 0 1) step_init_ret
/-- C4, counterexample: `reset()` on the mid-session state `sMid`,
whose filter holds a stored output and a stored timestamp, leaves the
Adaptive Filter's internal state entirely unchanged — in particular
neither smoother state nor the stored timestamp is cleared. -/
theorem C4_reset_cex :
    (sMid.reset Cunit).one_euro_filter = sMid.one_euro_filter ∧
    (sMid.reset Cunit).one_euro_filter.x_filter.s ≠ none ∧
    (sMid.reset Cunit).one_euro_filter.last_timestamp ≠ none := by
  refine ⟨rfl, ?_, ?_⟩ <;> simp [TrajectoryProcessor.reset, sMid, procInit,
    TrajectoryProcessor.init, OneEuroFilter.mkNew]

/-- C4 (amended): `reset()` restores every ProcessorState field to its
initial value and invokes the external landing analyzer's reset, but
does NOT clear the Adaptive Filter's internal state; the filter is
cleared and re-initialized only by the next `process_realtime_step`
call, which after a reset necessarily starts a new session, is
accepted, and seeds the filter on its sample. -/
theorem C4_reset_amended {σl σr : Type} (C : Collaborators σl σr)
    (s : TrajectoryProcessor σl σr) (pos : Vec3) (t : ℝ) :
    (s.reset C).last_valid_pos = none ∧
    (s.reset C).last_valid_time = 0 ∧
    (s.reset C).velocity = 0 ∧
    (s.reset C).prev_pos = none ∧
    (s.reset C).prev_time = none ∧
    (s.reset C).frame_count = 0 ∧
    (s.reset C).landing_analyzer = C.reset_landing_analysis s.landing_analyzer ∧
    (s.reset C).one_euro_filter = s.one_euro_filter ∧
    ((s.reset C).process_realtime_step C pos t).proc.one_euro_filter.x_filter.s = some pos ∧
    ((s.reset C).process_realtime_step C pos t).proc.one_euro_filter.dx_filter.s = some 0 ∧
    ((s.reset C).process_realtime_step C pos t).proc.one_euro_filter.last_timestamp = some t ∧
    ∃ sp ev, ((s.reset C).process_realtime_step C pos t).ret = some (some pos, sp, ev) := by
  rw [step_new_session C (s.reset C) pos t
    (Or.inl (by norm_num [TrajectoryProcessor.reset]))]
  rw [accept_branch_new_eval C _ pos t 0.033 (by norm_num)]
  exact ⟨rfl, by norm_num [TrajectoryProcessor.reset], rfl, rfl, rfl, rfl, rfl, rfl,
    rfl, rfl, rfl, _, _, rfl⟩

/-- C5: in a continuing session with a stored last valid position, the
call returns the explicit no-output rejection result if and only if
the Euclidean distance between the raw sample and the predicted
position `last_valid_pos + velocity * dt` exceeds the max-jump
threshold. -/
theorem C5_reject_iff_jump {σl σr : Type} (C : Collaborators σl σr)
    (s : TrajectoryProcessor σl σr) (pos : Vec3) (t : ℝ) (lvp : Vec3)
    (h1 : 0 < s.last_valid_time) (h2 : t - s.last_valid_time ≤ s.timeout_threshold)
    (h3 : s.last_valid_pos = some lvp) :
    (s.process_realtime_step C pos t).ret = some (none, 0, rejEvents (s.frame_count + 1)) ↔
      vnorm (pos - (lvp + s.velocity * (t - s.last_valid_time))) > s.max_jump_distance := by
  rw [step_continuing C s pos t lvp h1 h2 h3]
  by_cases hd :
    vnorm (pos - (lvp + s.velocity * (t - s.last_valid_time))) > s.max_jump_distance
  · rw [if_pos hd]
    exact iff_of_true rfl hd
  · rw [if_neg hd]
    constructor
    · intro h
      obtain ⟨fp, _, _, _, hv, _⟩ := accept_branch_ret_shape C _ pos t false
        (t - s.last_valid_time) none 0 (rejEvents (s.frame_count + 1)) h
      exact absurd hv (by simp)
    · intro h
      exact absurd h hd

/-- C5, witness: the rejection criterion applied to the concrete
mid-session state and the sample 2000 mm from the predicted
position. -/
theorem C5_reject_iff_jump_witness :
    (sMid.process_realtime_step Cunit ⟨2000, 0, 0⟩ (1.1 : ℝ)).ret =
      some (none, 0, rejEvents (sMid.frame_count + 1)) :=
  (C5_reject_iff_jump Cunit sMid ⟨2000, 0, 0⟩ 1.1 ⟨0, 0, 0⟩
    (by norm_num [sMid, procInit, TrajectoryProcessor.init])
    (by norm_num [sMid, procInit, TrajectoryProcessor.init])
    (by simp [sMid, procInit, TrajectoryProcessor.init])).mpr
    (by
      have he : (⟨2000, 0, 0⟩ : Vec3) -
          (⟨0, 0, 0⟩ + sMid.velocity * ((1.1 : ℝ) - sMid.last_valid_time)) = ⟨2000, 0, 0⟩ := by
        simp [sMid, procInit, TrajectoryProcessor.init, Vec3.sub_def, Vec3.add_def,
          Vec3.mulR_def, Vec3.zero_def]
      rw [he, vnorm_eval 2000 0 0 2000 (by norm_num) (by norm_num)]
      norm_num [sMid, procInit, TrajectoryProcessor.init])
/-- C6: a sample with no positive prior valid time, or arriving more
than the timeout threshold after the last valid time, starts a new
session: it is accepted unconditionally (returned as the filtered
position, whatever its distance from any earlier position), the
Adaptive Filter is cleared and re-initialized on that very sample, and
the velocity is re-estimated with no contribution from the pre-gap
velocity (zero when no pre-gap position exists, the unblended
single-step estimate otherwise). -/
theorem C6_new_session_accepts {σl σr : Type} (C : Collaborators σl σr)
    (s : TrajectoryProcessor σl σr) (pos : Vec3) (t : ℝ)
    (h : s.last_valid_time ≤ 0 ∨ t - s.last_valid_time > s.timeout_threshold) :
    (∃ sp ev, (s.process_realtime_step C pos t).ret = some (some pos, sp, ev)) ∧
    (s.process_realtime_step C pos t).proc.one_euro_filter.x_filter.s = some pos ∧
    (s.process_realtime_step C pos t).proc.one_euro_filter.dx_filter.s = some 0 ∧
    (s.process_realtime_step C pos t).proc.one_euro_filter.last_timestamp = some t ∧
    (s.process_realtime_step C pos t).proc.velocity =
      (match s.last_valid_pos with
        | some lvp => (pos - lvp) / (0.033 : ℝ)
        | none => 0) := by
  rw [step_new_session C s pos t h, accept_branch_new_eval C _ pos t 0.033 (by norm_num)]
  exact ⟨⟨_, _, rfl⟩, rfl, rfl, rfl, rfl⟩

/-- C6, witness: the first sample on a fresh processor (no prior valid
time) at an arbitrary position. -/
theorem C6_new_session_accepts_witness :
    (∃ sp ev, (procInit.process_realtime_step Cunit ⟨5, 6, 7⟩ 1).ret =
      some (some ⟨5, 6, 7⟩, sp, ev)) ∧
    (procInit.process_realtime_step Cunit ⟨5, 6, 7⟩ 1).proc.one_euro_filter.x_filter.s =
      some ⟨5, 6, 7⟩ ∧
    (procInit.process_realtime_step Cunit ⟨5, 6, 7⟩ 1).proc.one_euro_filter.dx_filter.s =
      some 0 ∧
    (procInit.process_realtime_step Cunit ⟨5, 6, 7⟩ 1).proc.one_euro_filter.last_timestamp =
      some 1 ∧
    (procInit.process_realtime_step Cunit ⟨5, 6, 7⟩ 1).proc.velocity =
      (match procInit.last_valid_pos with
        | some lvp => (⟨5, 6, 7⟩ - lvp) / (0.033 : ℝ)
        | none => 0) :=
  C6_new_session_accepts Cunit procInit ⟨5, 6, 7⟩ 1
    (Or.inl (by norm_num [procInit, TrajectoryProcessor.init]))

/-- C7: during a call that returns a filtered position, the landing
analyzer is never invoked when that position's z-coordinate is at or
above 80 mm, and is invoked exactly once (on the filtered position and
the call's timestamp) when it is below 80 mm. -/
theorem C7_landing_gating {σl σr : Type} (C : Collaborators σl σr)
    (s : TrajectoryProcessor σl σr) (pos : Vec3) (t : ℝ)
    (v : Vec3) (sp : ℝ) (ev : Events)
    (h : (s.process_realtime_step C pos t).ret = some (some v, sp, ev)) :
    (80 ≤ v.z → (s.process_realtime_step C pos t).landing_calls = []) ∧
    (v.z < 80 → (s.process_realtime_step C pos t).landing_calls = [(v, t)]) := by
  have hcalls : (s.process_realtime_step C pos t).landing_calls =
      if v.z < 80 then [(v, t)] else [] := by
    by_cases hn : s.last_valid_time ≤ 0 ∨ t - s.last_valid_time > s.timeout_threshold
    · rw [step_new_session C s pos t hn] at h ⊢
      exact accept_branch_landing C _ pos t true 0.033 v sp ev h
    · push_neg at hn
      obtain ⟨hl, hg⟩ := hn
      rcases h3 : s.last_valid_pos with _ | lvp
      · rw [step_continuing_none C s pos t hl hg h3] at h ⊢
        exact accept_branch_landing C _ pos t false (t - s.last_valid_time) v sp ev h
      · rw [step_continuing C s pos t lvp hl hg h3] at h ⊢
        by_cases hd :
          vnorm (pos - (lvp + s.velocity * (t - s.last_valid_time))) > s.max_jump_distance
        · rw [if_pos hd] at h
          simp at h
        · rw [if_neg hd] at h ⊢
          exact accept_branch_landing C _ pos t false (t - s.last_valid_time) v sp ev h
  constructor
  · intro h80
    rw [hcalls, if_neg (not_lt.mpr h80)]
  · intro hlt
    rw [hcalls, if_pos hlt]

/-- C7, witness: the accepted first call at height 200 mm makes no
landing-analyzer call. -/
theorem C7_landing_gating_witness :
    (procInit.process_realtime_step Cunit ⟨0, 0, 200⟩ 1).landing_calls = [] :=
  (C7_landing_gating Cunit procInit ⟨0, 0, 200⟩ 1 ⟨0, 0, 200⟩ 0
    (accEvents false false 0 1) step_init_ret).1 (by norm_num)

/-- C9: a one-euro filter call past the first (stored timestamp and
stored smoother output exist) with non-positive elapsed time returns
the previous smoothed output and leaves the whole filter state —
both smoothers, their coefficients and the stored timestamp —
unchanged. -/
theorem C9_filter_nonpositive_dt (f : OneEuroFilter) (x : Vec3) (t lt0 : ℝ) (xs : Vec3)
    (h1 : f.last_timestamp = some lt0) (h2 : t - lt0 ≤ 0) (h3 : f.x_filter.s = some xs) :
    f.filter x t = (FilterRet.val (some xs), f) := by
  simp only [OneEuroFilter.filter, h1]
  rw [if_pos h2, h3]

/-- C9, witness: a duplicate timestamp on the concrete filter state
`fMid` returns the stored output (1, 2, 3) and leaves `fMid`
unchanged. -/
theorem C9_filter_nonpositive_dt_witness :
    fMid.filter ⟨9, 9, 9⟩ 2 = (FilterRet.val (some ⟨1, 2, 3⟩), fMid) :=
  C9_filter_nonpositive_dt fMid ⟨9, 9, 9⟩ 2 2 ⟨1, 2, 3⟩ rfl (by norm_num) rfl

/-- C10: an accepted new-session sample with a surviving pre-gap
last_valid_pos gets velocity `(filtered_pos - last_valid_pos) / 0.033`
— the fixed nominal time step, not the actual gap — and the returned
speed is the Euclidean norm of that vector (the filtered position
being the raw sample itself, since the filter re-initializes). -/
theorem C10_new_session_velocity {σl σr : Type} (C : Collaborators σl σr)
    (s : TrajectoryProcessor σl σr) (pos : Vec3) (t : ℝ) (lvp : Vec3)
    (h : s.last_valid_time ≤ 0 ∨ t - s.last_valid_time > s.timeout_threshold)
    (hlvp : s.last_valid_pos = some lvp) :
    (s.process_realtime_step C pos t).proc.velocity = (pos - lvp) / (0.033 : ℝ) ∧
    ∃ ev, (s.process_realtime_step C pos t).ret =
      some (some pos, vnorm ((pos - lvp) / (0.033 : ℝ)), ev) := by
  rw [step_new_session C s pos t h, accept_branch_new_eval C _ pos t 0.033 (by norm_num)]
  constructor
  · simp [hlvp]
  · simp [hlvp]

/-- C10, witness: after a 1-second gap from `sMid` (pre-gap position
at the origin), the new sample at (10, 0, 0) gets velocity
(10, 0, 0) / 0.033 and speed equal to its norm. -/
theorem C10_new_session_velocity_witness :
    (sMid.process_realtime_step Cunit ⟨10, 0, 0⟩ 2).proc.velocity =
      ((⟨10, 0, 0⟩ : Vec3) - ⟨0, 0, 0⟩) / (0.033 : ℝ) ∧
    ∃ ev, (sMid.process_realtime_step Cunit ⟨10, 0, 0⟩ 2).ret =
      some (some ⟨10, 0, 0⟩, vnorm (((⟨10, 0, 0⟩ : Vec3) - ⟨0, 0, 0⟩) / (0.033 : ℝ)), ev) :=
  C10_new_session_velocity Cunit sMid ⟨10, 0, 0⟩ 2 ⟨0, 0, 0⟩
    (Or.inr (by norm_num [sMid, procInit, TrajectoryProcessor.init]))
    (by simp [sMid, procInit, TrajectoryProcessor.init])

/-- C8, counterexample: on the concrete buffer `ptsNeg` the elapsed
times are [1, -1/2, 1, 1]; the negative elapsed time is NOT floored to
a positive epsilon, and its step contributes the speed -2 (one meter
divided by the negative elapsed time) to the speeds used for
max_speed. -/
theorem C8_serve_speed_guard_cex :
    serve_speeds ptsNeg = [1, -2, 1, 1] ∧
    ((-2 : ℝ)) ∈ serve_speeds ptsNeg ∧
    serve_dt ptsNeg = [1, -1 / 2, 1, 1] ∧
    serve_dt_guarded ptsNeg = [1, -1 / 2, 1, 1] ∧
    (TrajectoryProcessor.get_serve_features ptsNeg).isSome := by
  refine ⟨serve_speeds_ptsNeg, ?_, ?_, ?_, ?_⟩
  · rw [serve_speeds_ptsNeg]
    simp
  · simp only [ptsNeg, serve_dt, npdiffR, List.map_cons, List.map_nil]
    norm_num
  · simp only [ptsNeg, serve_dt_guarded, serve_dt, npdiffR, List.map_cons, List.map_nil]
    norm_num
  · unfold TrajectoryProcessor.get_serve_features
    rw [if_neg (by norm_num [ptsNeg])]
    rfl

/-- C8 (amended): with at least 5 buffered points, `get_serve_features`
returns a report whose max_speed is the maximum of the per-step speeds,
each the Euclidean distance between consecutive positions in meters
divided by the elapsed time of the step with an exactly-zero elapsed
time floored to 0.001 (so no denominator is zero); a negative elapsed
time is NOT guarded and its step's speed is computed with the negative
value. -/
theorem C8_serve_speed_guard_amended (points : List (Vec3 × ℝ)) (h : 5 ≤ points.length) :
    ∃ r, TrajectoryProcessor.get_serve_features points = some r ∧
      r.max_speed = listMax (specStepSpeeds points) ∧
      serve_speeds points = specStepSpeeds points ∧
      ∀ d ∈ serve_dt_guarded points, d ≠ 0 := by
  unfold TrajectoryProcessor.get_serve_features
  rw [if_neg (not_lt.mpr h)]
  exact ⟨_, rfl, by rw [← serve_speeds_eq_spec points],
    serve_speeds_eq_spec points, serve_dt_guarded_ne_zero points⟩

/-- C8, witness: the amended statement applied to the concrete buffer
`ptsNeg` of five points. -/
theorem C8_serve_speed_guard_witness :
    ∃ r, TrajectoryProcessor.get_serve_features ptsNeg = some r ∧
      r.max_speed = listMax (specStepSpeeds ptsNeg) ∧
      serve_speeds ptsNeg = specStepSpeeds ptsNeg ∧
      ∀ d ∈ serve_dt_guarded ptsNeg, d ≠ 0 :=
  C8_serve_speed_guard_amended ptsNeg (by norm_num [ptsNeg])
